import Mathlib

/-!
Shallow embedding of selected parts of HAProxy, as found in this repository
under src/haproxy: the task scheduler (src/task.c), the memory pools
(src/pool.c), the PROXY-protocol handshake (src/connection.c) and the H1/H2
multiplexers (src/mux_h1.c, src/mux_h2.c), together with theorems checking
the specification claims against the embedded code.

Machine integers are represented as `Nat`/`Int` with explicit reductions
modulo 2^32 where the C code relies on 32-bit wrapping.
-/

/-! ## Ticks and the timer wait queue (src/task.c, include/haproxy/task.h) -/

/-- The 32-bit tick modulus. -/
def TICK_MOD : Nat := 4294967296

/-- `TIMER_LOOK_BACK` from include/haproxy/task.h line 83: `(1U << 31)`. -/
def TIMER_LOOK_BACK : Nat := 2147483648

/-- Modelled from the spec: tick.h is not among the extracted sources.
Per the glossary, `TICK_ETERNITY` is the reserved tick value meaning
"never"; in HAProxy it is the value 0, which `tick_isset` tests for. -/
def TICK_ETERNITY : Nat := 0

/-- Modelled from the spec: a tick is set iff it differs from `TICK_ETERNITY`. -/
def tick_isset (t : Nat) : Bool := t != TICK_ETERNITY

/-- Unsigned 32-bit subtraction `a - b` (C unsigned arithmetic). -/
def sub32 (a b : Nat) : Nat := (a % TICK_MOD + (TICK_MOD - b % TICK_MOD)) % TICK_MOD

/-- Whether a 32-bit value is negative when reinterpreted as a signed int. -/
def isNeg32 (x : Nat) : Bool := decide (2147483648 ≤ x)

/-- Modelled from the spec: wrapping signed comparison `(t1 - t2) < 0`, i.e.
`t1` lies in the past half-window of `t2` ("entries with a key in the past
modulo 2^32 are expired", window `now - 2^31 … now + 2^31 - 1`). -/
def tick_is_lt (a b : Nat) : Bool := isNeg32 (sub32 a b)

/-- Modelled from the spec: wrapping signed comparison `(t1 - t2) <= 0`. -/
def tick_is_le (a b : Nat) : Bool := sub32 a b == 0 || isNeg32 (sub32 a b)

/-- Modelled from the spec: a set tick is expired when it is `<=` now in the
wrapping comparison; `TICK_ETERNITY` never expires. -/
def tick_is_expired (t now : Nat) : Bool := tick_isset t && tick_is_le t now

/-- A node of the timer wait-queue tree: the eb32 key under which the task is
currently stored, a task identity, and the task's real `expire` tick. -/
structure WqEntry where
  key : Nat
  tid : Nat
  expire : Nat
deriving DecidableEq, Repr

/-- The eb32 timer tree is modelled as a list of entries sorted by key in
ascending unsigned order. `eb32_lookup_ge` returns the first node whose key
is `>= x`. -/
def eb32_lookup_ge (x : Nat) : List WqEntry → Option WqEntry
  | [] => none
  | e :: l => if x ≤ e.key then some e else eb32_lookup_ge x l

/-- `eb32_first`: the leftmost node of the tree. -/
def eb32_first (wq : List WqEntry) : Option WqEntry := wq.head?

/-- Sorted insertion into the key-ordered tree (duplicate keys are inserted
after the existing ones, as eb32_insert does). -/
def eb32_insert (e : WqEntry) : List WqEntry → List WqEntry
  | [] => [e]
  | x :: l => if e.key < x.key then e :: x :: l else x :: eb32_insert e l

/-- The node examined by one iteration of the `wake_expired_tasks` walk
(src/task.c lines 224-233 and 300-309): `eb32_lookup_ge(&timers,
now_ms - TIMER_LOOK_BACK)`, looping back to `eb32_first` when the end of the
tree was reached. -/
def wq_lookup (now : Nat) (wq : List WqEntry) : Option WqEntry :=
  match eb32_lookup_ge (sub32 now TIMER_LOOK_BACK) wq with
  | some e => some e
  | none => eb32_first wq

/-- Outcome of one loop iteration of `wake_expired_tasks`. -/
inductive WalkAction where
  | stop
  | wake (e : WqEntry) (wq : List WqEntry)
  | requeue (wq : List WqEntry)
deriving DecidableEq, Repr

/-- One iteration of the timer walk of `wake_expired_tasks` (src/task.c lines
253-268, identically lines 310-325 for the global tree): the looked-up task is
woken with reason `TASK_WOKEN_TIMER` when its expire tick is expired; a task
whose key is stale is unlinked and requeued under its real expire tick when
that tick is set, or simply unlinked when it is not; otherwise the walk
stops. -/
def wake_step (now : Nat) (wq : List WqEntry) : WalkAction :=
  match wq_lookup now wq with
  | none => .stop
  | some e =>
    if tick_is_expired e.expire now then
      .wake e (wq.erase e)
    else if e.expire != e.key then
      .requeue (if tick_isset e.expire
                then eb32_insert { e with key := e.expire } (wq.erase e)
                else wq.erase e)
    else .stop

/-- The timer-tree walk of `wake_expired_tasks` (src/task.c lines 213-268):
up to `max_processed` loop iterations; returns the tasks woken with reason
`TASK_WOKEN_TIMER` (in order) and the final tree. -/
def wake_expired_tasks (now : Nat) : Nat → List WqEntry → List WqEntry × List WqEntry
  | 0, wq => ([], wq)
  | Nat.succ n, wq =>
    match wake_step now wq with
    | .stop => ([], wq)
    | .wake e rest =>
      let r := wake_expired_tasks now n rest
      (e :: r.1, r.2)
    | .requeue wq2 => wake_expired_tasks now n wq2

/-! ## Scheduler per-class budgets (src/task.c, process_runnable_tasks) -/

/-- The default weights of `process_runnable_tasks` (src/task.c lines 544-548):
`{[TL_URGENT] = 64, [TL_NORMAL] = 48, [TL_BULK] = 16}`. -/
def default_weight_urgent : Nat := 64

/-- Default weight of the normal class. -/
def default_weight_normal : Nat := 48

/-- Default weight of the bulk class. -/
def default_weight_bulk : Nat := 16

/-- The per-class budget computation of `process_runnable_tasks` (src/task.c
lines 562-599): each class that currently has work gets its default weight,
the others get 0, and each weight is then scaled by
`max[queue] = (max_processed * max[queue] + max_total - 1) / max_total`.
Returns `(max[TL_URGENT], max[TL_NORMAL], max[TL_BULK])`; when no class has
work the function returns early with all budgets 0. -/
def process_runnable_budgets (max_processed : Nat) (urgent normal bulk : Bool) :
    Nat × Nat × Nat :=
  let mu := if urgent then default_weight_urgent else 0
  let mn := if normal then default_weight_normal else 0
  let mb := if bulk then default_weight_bulk else 0
  let max_total := mu + mn + mb
  if max_total = 0 then (0, 0, 0)
  else ((max_processed * mu + max_total - 1) / max_total,
        (max_processed * mn + max_total - 1) / max_total,
        (max_processed * mb + max_total - 1) / max_total)

/-- Sum of the three per-class budgets. -/
def budget_sum (max_processed : Nat) (urgent normal bulk : Bool) : Nat :=
  let m := process_runnable_budgets max_processed urgent normal bulk
  m.1 + m.2.1 + m.2.2

/-! ## Memory pools (src/pool.c, locked variant lines 316-439) -/

/-- The accounting fields of a `struct pool_head` relevant to the claims.
`free_list` abstracts the singly-linked free list by its length. -/
structure PoolHead where
  allocated : Nat
  used : Nat
  limit : Nat
  minavail : Nat
  failed : Nat
  free_list : Nat
deriving DecidableEq, Repr

/-- The loop of `pool_gc` for one pool (src/pool.c lines 428-434): while the
free list is non-empty and `(int)(allocated - used) > (int)minavail`, pop one
object and decrement `allocated`. The fuel is the free-list length, which
bounds the number of iterations. `pool_gc` iterates this over every pool; we
model its effect on the pool under consideration. -/
def pool_gc_loop : Nat → PoolHead → PoolHead
  | 0, p => p
  | Nat.succ n, p =>
    if p.free_list ≠ 0 ∧ (p.minavail : Int) < (p.allocated : Int) - (p.used : Int) then
      pool_gc_loop n { p with free_list := p.free_list - 1, allocated := p.allocated - 1 }
    else p

/-- `pool_gc` restricted to one pool (src/pool.c lines 417-439). -/
def pool_gc_pool (p : PoolHead) : PoolHead := pool_gc_loop p.free_list p

/-- The walk of `pool_flush` (src/pool.c lines 393-398): one `allocated--`
per element of the free list. -/
def pool_flush_loop : Nat → PoolHead → PoolHead
  | 0, p => p
  | Nat.succ n, p => pool_flush_loop n { p with allocated := p.allocated - 1 }

/-- `pool_flush` (src/pool.c lines 385-410): decrements `allocated` once per
free-list element, then empties the free list. `used` is untouched. -/
def pool_flush (p : PoolHead) : PoolHead :=
  { pool_flush_loop p.free_list p with free_list := 0 }

/-- Exit reason of the allocation loop of `__pool_refill_alloc`. -/
inductive FillExit where
  | done
  | allocFail
  | limitHit
deriving DecidableEq, Repr

/-- One pass of the `while (1)` loop of `__pool_refill_alloc` (src/pool.c
lines 336-369) up to its first exit: check the hard limit, call the OS
allocator (`os i` is the outcome of the i-th `pool_alloc_area` call), and on
success either break out (`++pool->allocated > avail + used`) or push the
object onto the free list and loop. The `failed++ / pool_gc / retry` logic
sits in the caller `__pool_refill_alloc`, since `failed` can flip at most
once per call. -/
def pool_fill_loop (os : Nat → Bool) (stop : Nat) (p : PoolHead) (i : Nat) :
    FillExit × PoolHead × Nat :=
  if p.limit ≠ 0 ∧ p.limit ≤ p.allocated then (.limitHit, p, i)
  else if os i = false then (.allocFail, p, i + 1)
  else if stop < p.allocated + 1 then (.done, { p with allocated := p.allocated + 1 }, i + 1)
  else pool_fill_loop os stop
         { p with allocated := p.allocated + 1, free_list := p.free_list + 1 } (i + 1)
termination_by stop + 1 - p.allocated
decreasing_by
  simp only [not_lt] at *
  omega

/-- Result of `__pool_refill_alloc`. -/
inductive RefillResult where
  | ok
  | outOfMemory
  | limitReached
deriving DecidableEq, Repr

/-- Observable outcome of one call to `__pool_refill_alloc`: the returned
value kind, the final pool accounting, the per-thread `pool_fail` activity
counter, the number of `pool_gc` runs and the number of OS allocator calls. -/
structure RefillOut where
  result : RefillResult
  pool : PoolHead
  pool_fail : Nat
  gc_runs : Nat
  os_calls : Nat
deriving DecidableEq, Repr

/-- `__pool_refill_alloc` (src/pool.c lines 324-372, locked variant; the
lockless variant at lines 186-241 has the same control flow): stop point
`avail += pool->used`; on hitting the hard limit return NULL bumping
`activity[tid].pool_fail`; on an OS allocation failure increment
`pool->failed`, run `pool_gc` once and retry; a second failure returns NULL
and bumps `pool_fail`; on success account `used++` and return the object. -/
def __pool_refill_alloc (os : Nat → Bool) (pool : PoolHead) (avail : Nat)
    (pool_fail gc_runs : Nat) : RefillOut :=
  let stop := avail + pool.used
  match pool_fill_loop os stop pool 0 with
  | (.limitHit, p, n) => ⟨.limitReached, p, pool_fail + 1, gc_runs, n⟩
  | (.done, p, n) => ⟨.ok, { p with used := p.used + 1 }, pool_fail, gc_runs, n⟩
  | (.allocFail, p, n) =>
    let p2 := pool_gc_pool { p with failed := p.failed + 1 }
    match pool_fill_loop os stop p2 n with
    | (.limitHit, q, m) => ⟨.limitReached, q, pool_fail + 1, gc_runs + 1, m⟩
    | (.done, q, m) => ⟨.ok, { q with used := q.used + 1 }, pool_fail, gc_runs + 1, m⟩
    | (.allocFail, q, m) =>
      ⟨.outOfMemory, { q with failed := q.failed + 1 }, pool_fail + 1, gc_runs + 1, m⟩

/-- The per-pool accounting invariant: every OS-allocated object is either
handed out (`used`) or on the free list. -/
def pool_inv (p : PoolHead) : Prop := p.used + p.free_list = p.allocated

/-! ## PROXY protocol v1 reception (src/connection.c, conn_recv_proxy) -/

/-- Modelled from the spec: `read_uint` lives in tools.c, which is not among
the extracted sources. It reads a decimal unsigned integer from the input,
stopping at the first non-digit ("layer 4 address in standard text form"). -/
def read_uint_aux (acc : Nat) : List Char → Nat × List Char
  | [] => (acc, [])
  | c :: l =>
    if c.isDigit then read_uint_aux (acc * 10 + (c.toNat - 48)) l else (acc, c :: l)

/-- `read_uint` with an initially empty accumulator. -/
def read_uint (l : List Char) : Nat × List Char := read_uint_aux 0 l

/-- Modelled from the spec: `inetaddr_host_lim_ret` lives in tools.c, which is
not among the extracted sources. It parses an IPv4 address in standard
dotted-quad text form ("layer 3 (eg: IP) source address in standard text
form") and returns its host-order 32-bit value together with the rest of the
input; inputs that are not of that shape are rejected (conn_recv_proxy then
fails on its next delimiter check). -/
def inetaddr_host_lim_ret (l : List Char) : Option (Nat × List Char) :=
  let r1 := read_uint l
  if r1.2.head? = some '.' then
    let r2 := read_uint r1.2.tail
    if r2.2.head? = some '.' then
      let r3 := read_uint r2.2.tail
      if r3.2.head? = some '.' then
        let r4 := read_uint r3.2.tail
        some (((r1.1 * 256 + r2.1) * 256 + r3.1) * 256 + r4.1, r4.2)
      else none
    else none
  else none

/-- Strips `pre` from the head of `l`; `none` when `l` does not start with
`pre` (models `strncmp`/`memcmp` prefix checks). -/
def drop_pre : List Char → List Char → Option (List Char)
  | [], l => some l
  | _, [] => none
  | p :: ps, c :: cs => if p = c then drop_pre ps cs else none

/-- Result of `conn_recv_proxy` as far as the claims observe it: the return
value, the parsed source and destination (IPv4 value and port), whether
`CO_FL_RCVD_PROXY` was set, and how many bytes were consumed from the
socket. -/
structure RecvProxyOut where
  ret : Nat
  src : Option (Nat × Nat)
  dst : Option (Nat × Nat)
  rcvd_proxy : Bool
  consumed : Nat
deriving DecidableEq, Repr

/-- `conn_recv_proxy` failure-style outcomes collapse to `ret = 0`, nothing
set, nothing consumed. -/
def recv_proxy_fail : RecvProxyOut := ⟨0, none, none, false, 0⟩

/-- The v1 "PROXY TCP4" path of `conn_recv_proxy` (src/connection.c lines
531-582 and 798-815), on the peeked input `input`: check the "PROXY " and
"TCP4 " prefixes, parse the source and destination addresses and ports each
followed by its delimiter, expect CRLF, then re-read exactly the header line
from the socket (`trash.data = line - trash.area`) and set
`CO_FL_RCVD_PROXY`. The v2/TCP6/UNKNOWN branches and the v2 signature path
(`not_v1`) are collapsed into failure outcomes, which the claim does not
observe. -/
def conn_recv_proxy (input : List Char) : RecvProxyOut :=
  if input.length = 0 then recv_proxy_fail
  else if input.length < 6 then recv_proxy_fail
  else
    match drop_pre "PROXY ".toList input with
    | none => recv_proxy_fail
    | some l0 =>
      if input.length < 9 then recv_proxy_fail
      else
        match drop_pre "TCP4 ".toList l0 with
        | none => recv_proxy_fail
        | some l1 =>
          match inetaddr_host_lim_ret l1 with
          | none => recv_proxy_fail
          | some (src3, l2) =>
            if l2.length = 0 then recv_proxy_fail
            else if l2.head? ≠ some ' ' then recv_proxy_fail
            else
              match inetaddr_host_lim_ret l2.tail with
              | none => recv_proxy_fail
              | some (dst3, l3) =>
                if l3.length = 0 then recv_proxy_fail
                else if l3.head? ≠ some ' ' then recv_proxy_fail
                else
                  let rs := read_uint l3.tail
                  if rs.2.length = 0 then recv_proxy_fail
                  else if rs.2.head? ≠ some ' ' then recv_proxy_fail
                  else
                    let rd := read_uint rs.2.tail
                    if rd.2.length < 2 then recv_proxy_fail
                    else
                      match rd.2 with
                      | '\r' :: '\n' :: rest =>
                        ⟨1, some (src3, rs.1 % 65536), some (dst3, rd.1 % 65536),
                          true, input.length - rest.length⟩
                      | _ => recv_proxy_fail

/-- Decimal digit character for `d < 10`. -/
def digitChar (d : Nat) : Char := Char.ofNat (48 + d)

/-- Canonical decimal text of a natural number (no leading zeros). -/
def natChars (n : Nat) : List Char :=
  if _h : n < 10 then [digitChar n]
  else natChars (n / 10) ++ [digitChar (n % 10)]
decreasing_by
  exact Nat.div_lt_self (by omega) (by omega)

/-- Dotted-quad text of an IPv4 address. -/
def ipv4Chars (a b c d : Nat) : List Char :=
  natChars a ++ '.' :: natChars b ++ '.' :: natChars c ++ '.' :: natChars d

/-- Host-order 32-bit value of a dotted quad. -/
def ipv4Val (a b c d : Nat) : Nat := ((a * 256 + b) * 256 + c) * 256 + d

/-- The complete PROXY v1 TCP4 header line for the given addresses/ports. -/
def proxyV1Line (a1 a2 a3 a4 b1 b2 b3 b4 sport dport : Nat) : List Char :=
  "PROXY TCP4 ".toList ++ ipv4Chars a1 a2 a3 a4 ++ ' ' :: ipv4Chars b1 b2 b3 b4 ++
    ' ' :: natChars sport ++ ' ' :: natChars dport ++ ['\r', '\n']

/-! ## H1 connection-mode decision (src/mux_h1.c, h1_set_cli_conn_mode) -/

/-- The mutually exclusive `H1S_F_WANT_{KAL,CLO,TUN}` connection-mode bits. -/
inductive H1WantMode where
  | kal
  | clo
  | tun
deriving DecidableEq, Repr

/-- The request (first) pass of `h1_set_cli_conn_mode` (src/mux_h1.c lines
890-903): on the input direction, `!(flags & (H1_MF_VER_11|H1_MF_CONN_KAL))
|| flags & H1_MF_CONN_CLO` forces `H1S_F_WANT_CLO`; then a `WANT_KAL` outcome
is forced to `WANT_CLO` when the frontend proxy state is `PR_STSTOPPED`. -/
def h1_set_cli_conn_mode_req (ver_11 conn_kal conn_clo : Bool)
    (want : H1WantMode) (fe_stopped : Bool) : H1WantMode :=
  let w := if (!(ver_11 || conn_kal)) || conn_clo then H1WantMode.clo else want
  if w = H1WantMode.kal ∧ fe_stopped then H1WantMode.clo else w

/-! ## H2 multiplexer (src/mux_h2.c) -/

/-- H2 error codes used by the claims (enum h2_err). -/
inductive H2Err where
  | NO_ERROR
  | PROTOCOL_ERROR
  | INTERNAL_ERROR
  | FLOW_CONTROL_ERROR
  | REFUSED_STREAM
  | STREAM_CLOSED
deriving DecidableEq, Repr

/-- H2 stream states (enum h2_ss), in source order. -/
inductive H2StreamState where
  | IDLE
  | RLOC
  | RREM
  | OPEN
  | HREM
  | HLOC
  | ERROR
  | CLOSED
deriving DecidableEq, Repr

/-- H2 connection demux states (enum h2_cs), in source order. -/
inductive H2ConnState where
  | PREFACE
  | SETTINGS1
  | FRAME_H
  | FRAME_P
  | FRAME_A
  | FRAME_E
  | ERROR
  | ERROR2
deriving DecidableEq, Repr

/-- Result of `h2c_decode_headers` as observed by `h2c_frt_handle_headers`:
`0` (missing data), `< 0` (recoverable decode failure) or `> 0` (success). -/
inductive HdrDecodeRes where
  | missing
  | failed
  | ok
deriving DecidableEq, Repr

/-- The inputs that determine the control flow of `h2c_frt_handle_headers`
on a HEADERS frame for a stream in IDLE state (src/mux_h2.c lines 2457-2584):
the demux frame header fields, the connection counters, and the outcomes of
the subroutines (HPACK decode, allocations) it calls. -/
structure FrtHeadersCtx where
  dsi : Nat
  dff_es : Bool
  max_id : Int
  dem_toomany : Bool
  nb_streams : Nat
  max_concurrent : Nat
  bufComplete : Bool
  decode : HdrDecodeRes
  decodeConnError : Bool
  h2sAllocOk : Bool
  csAllocOk : Bool
  streamCreateOk : Bool
deriving DecidableEq, Repr

/-- Outcome of `h2c_frt_handle_headers` on an IDLE stream. -/
inductive FrtHeadersOut where
  | nullOut
  | connError (err : H2Err)
  | rstStream (refused : Bool)
  | accepted (id : Nat) (st : H2StreamState)
deriving DecidableEq, Repr

/-- Result record: outcome, resulting `h2c->max_id`, and whether a stream is
present in the tree on return. -/
structure FrtHeadersRes where
  out : FrtHeadersOut
  max_id : Int
  created : Bool
deriving DecidableEq, Repr

/-- `h2c_frt_handle_headers` for a stream in IDLE state (src/mux_h2.c lines
2457-2584): after the buffer completeness checks, `h2c->dsi <= h2c->max_id
|| !(h2c->dsi & 1)` is a connection error `H2_ERR_PROTOCOL_ERROR`
(lines 2505-2510); `H2_CF_DEM_TOOMANY` defers; then the HEADERS block is
decoded and `h2c_frt_stream_new` (lines 1346-1398) is called: it refuses
past `h2_settings_max_concurrent_streams`, and `h2s_new` (lines 1326-1333)
records `h2c->max_id = id`. Allocation failures after `h2s_new` destroy the
stream (but `max_id` stays raised). At `done` (lines 2546-2559) END_STREAM
moves OPEN to HREM and `max_id` is raised to `h2s->id` if still below it. -/
def h2c_frt_handle_headers_idle (c : FrtHeadersCtx) : FrtHeadersRes :=
  if !c.bufComplete then ⟨.nullOut, c.max_id, false⟩
  else if (c.dsi : Int) ≤ c.max_id ∨ c.dsi % 2 = 0 then
    ⟨.connError .PROTOCOL_ERROR, c.max_id, false⟩
  else if c.dem_toomany then ⟨.nullOut, c.max_id, false⟩
  else if c.decodeConnError then ⟨.nullOut, c.max_id, false⟩
  else
    match c.decode with
    | .missing => ⟨.nullOut, c.max_id, false⟩
    | .failed => ⟨.rstStream false, c.max_id, false⟩
    | .ok =>
      if c.max_concurrent ≤ c.nb_streams then ⟨.rstStream true, c.max_id, false⟩
      else if !c.h2sAllocOk then ⟨.rstStream true, c.max_id, false⟩
      else
        let mid : Int := (c.dsi : Int)
        if !c.csAllocOk ∨ !c.streamCreateOk then ⟨.rstStream true, mid, false⟩
        else
          let st := if c.dff_es then H2StreamState.HREM else H2StreamState.OPEN
          let mid2 := if mid < (c.dsi : Int) then (c.dsi : Int) else mid
          ⟨.accepted c.dsi st, mid2, true⟩

/-- `H2_INITIAL_WINDOW_INCREMENT` (src/mux_h2.c line 393):
`(1U<<31)-1 - 65535`. -/
def H2_INITIAL_WINDOW_INCREMENT : Nat := 2147483647 - 65535

/-- The fields of `struct h2c` read and written by `h2c_send_conn_wu`:
the pending connection-level received-byte counter `rcvd_c` (a `uint32_t`)
and the `H2_CF_WINDOW_OPENED` flag. -/
structure H2cWuState where
  rcvd_c : Nat
  window_opened : Bool
deriving DecidableEq, Repr

/-- A WINDOW_UPDATE frame as emitted by `h2c_send_window_update`. -/
structure WuFrame where
  sid : Nat
  increment : Nat
deriving DecidableEq, Repr

/-- `h2c_send_conn_wu` (src/mux_h2.c lines 2184-2209): nothing to do while
`rcvd_c` is 0; otherwise on the first update of the connection set
`H2_CF_WINDOW_OPENED` and add `H2_INITIAL_WINDOW_INCREMENT` to `rcvd_c`,
then emit `WINDOW_UPDATE(sid = 0, rcvd_c)`; on success (`roomOk`, i.e.
`h2c_send_window_update` returned > 0) reset `rcvd_c` to 0. Returns the C
return value, the new state and the emitted frame, if any. -/
def h2c_send_conn_wu (roomOk : Bool) (c : H2cWuState) :
    Nat × H2cWuState × Option WuFrame :=
  if c.rcvd_c = 0 then (1, c, none)
  else
    let c1 := if !c.window_opened then
                { rcvd_c := c.rcvd_c + H2_INITIAL_WINDOW_INCREMENT,
                  window_opened := true }
              else c
    if roomOk then (1, { c1 with rcvd_c := 0 }, some ⟨0, c1.rcvd_c⟩)
    else (0, c1, none)

/-- Reinterpret a 32-bit word as a signed `int32_t` value. -/
def toSigned32 (x : Nat) : Int := if x < 2147483648 then (x : Int) else (x : Int) - 4294967296

/-- Wrap an integer into the `int32_t` range (two's-complement semantics of
the 32-bit additions in h2c_handle_window_update). -/
def wrap32 (x : Int) : Int := (x + 2147483648) % 4294967296 - 2147483648

/-- Inputs of `h2c_handle_window_update` (src/mux_h2.c lines 2291-2362):
demux stream id `dsi`, frame length `dfl`, bytes available in the demux
buffer, the 32-bit payload word, the connection send window `mws`, the mux
initial window `miw`, and the addressed stream's `sws` and state. -/
structure WuCtx where
  dsi : Nat
  dfl : Nat
  dbuf_data : Nat
  inc_raw : Nat
  mws : Int
  miw : Int
  sws : Int
  strm_st : H2StreamState
deriving DecidableEq, Repr

/-- Observable result of `h2c_handle_window_update`: the C return value, the
updated demux state `st0` (`none` = unchanged), the connection/stream error
raised, if any, and the resulting windows. -/
structure WuRes where
  ret : Nat
  st0 : Option H2ConnState
  connErr : Option H2Err
  strmErr : Option H2Err
  mws : Int
  sws : Int
deriving DecidableEq, Repr

/-- `h2c_handle_window_update` (src/mux_h2.c lines 2291-2362): process the
full frame only; for a non-zero stream id, a WINDOW_UPDATE on a CLOSED
stream is accepted silently, a zero increment is a stream
`H2_ERR_PROTOCOL_ERROR` (via `h2s_error`, then `st0 = H2_CS_FRAME_E`), an
increment overflowing the stream send window `h2s_mws = sws + miw` is a
stream `H2_ERR_FLOW_CONTROL_ERROR`, otherwise `sws += inc`; for stream id 0
the same checks apply to the connection window `mws` with errors raised via
`h2c_error` (which sets `st0 = H2_CS_ERROR`). The stream send-list
manipulation on a window opening does not affect these observables. -/
def h2c_handle_window_update (c : WuCtx) : WuRes :=
  if c.dbuf_data < c.dfl then ⟨0, none, none, none, c.mws, c.sws⟩
  else
    let inc := toSigned32 c.inc_raw
    if c.dsi ≠ 0 then
      if c.strm_st = H2StreamState.CLOSED then ⟨1, none, none, none, c.mws, c.sws⟩
      else if inc = 0 then
        ⟨0, some H2ConnState.FRAME_E, none, some H2Err.PROTOCOL_ERROR, c.mws, c.sws⟩
      else if 0 ≤ wrap32 (c.sws + c.miw) ∧ wrap32 (wrap32 (c.sws + c.miw) + inc) < 0 then
        ⟨0, some H2ConnState.FRAME_E, none, some H2Err.FLOW_CONTROL_ERROR, c.mws, c.sws⟩
      else ⟨1, none, none, none, c.mws, wrap32 (c.sws + inc)⟩
    else
      if inc = 0 then
        ⟨0, some H2ConnState.ERROR, some H2Err.PROTOCOL_ERROR, none, c.mws, c.sws⟩
      else if 0 ≤ c.mws ∧ wrap32 (c.mws + inc) < 0 then
        ⟨0, some H2ConnState.ERROR, some H2Err.FLOW_CONTROL_ERROR, none, c.mws, c.sws⟩
      else ⟨1, none, none, none, wrap32 (c.mws + inc), c.sws⟩

/-! ## Theorems -/

/-- C8: on the first (request) pass of the client-side connection-mode
decision, starting from the default `WANT_KAL` with no tunnel established,
the mode becomes `WANT_CLO` exactly when the request lacks both the HTTP/1.1
version flag and an explicit keep-alive token, or carries an explicit close
token, or the frontend proxy is stopped; otherwise it remains `WANT_KAL`. -/
theorem h1_cli_conn_mode_req_spec :
    ∀ ver_11 conn_kal conn_clo fe_stopped : Bool,
      h1_set_cli_conn_mode_req ver_11 conn_kal conn_clo H1WantMode.kal fe_stopped =
        (if ((!ver_11 && !conn_kal) || conn_clo || fe_stopped) = true then H1WantMode.clo
         else H1WantMode.kal) := by
  decide

/-- C3 counterexample: with the default cap `runqueue_depth = 200` and work
pending in exactly the urgent and normal classes, the per-class budgets are
115 and 86, summing to 201, not 200. -/
theorem budget_sum_ne_depth_cex : ¬ budget_sum 200 true true false = 200 := by
  decide

/-- C3 (amended): with the default cap 200, the budgets obtained by
ceiling-scaling the weights 64/48/16 restricted to the classes with work sum
to 200 in every non-empty class combination except urgent+normal, where the
ceiling rounding makes them sum to 201. -/
theorem budget_sum_depth_amended :
    ∀ u n b : Bool, (u || n || b) = true →
      (budget_sum 200 u n b = 200 ∨ budget_sum 200 u n b = 201) ∧
      (budget_sum 200 u n b = 201 ↔ (u && n && !b) = true) := by
  decide

/-- Witness for `budget_sum_depth_amended` at the all-classes-active input. -/
theorem budget_sum_depth_amended_witness :
    (true || true || true) = true ∧
      ((budget_sum 200 true true true = 200 ∨ budget_sum 200 true true true = 201) ∧
       (budget_sum 200 true true true = 201 ↔ (true && true && !true) = true)) :=
  ⟨by decide, budget_sum_depth_amended true true true (by decide)⟩

set_option maxHeartbeats 1000000 in
/-- C1: on a complete HEADERS frame for a stream in IDLE state, an even
stream id or one not above `max_id` is a connection `PROTOCOL_ERROR` with no
stream created; any accepted stream has the demuxed id, which is odd and
strictly greater than the previous `max_id`, and `max_id` is raised to it;
and `max_id` never decreases. -/
theorem h2c_frt_headers_id_monotone (c : FrtHeadersCtx) :
    (c.bufComplete = true → ((c.dsi : Int) ≤ c.max_id ∨ c.dsi % 2 = 0) →
       h2c_frt_handle_headers_idle c =
         ⟨.connError .PROTOCOL_ERROR, c.max_id, false⟩) ∧
    (∀ id st, (h2c_frt_handle_headers_idle c).out = .accepted id st →
       id = c.dsi ∧ id % 2 = 1 ∧ c.max_id < (id : Int) ∧
       (h2c_frt_handle_headers_idle c).max_id = (id : Int)) ∧
    c.max_id ≤ (h2c_frt_handle_headers_idle c).max_id := by
  refine ⟨?_, ?_, ?_⟩
  · intro hb hcond
    simp [h2c_frt_handle_headers_idle, hb, hcond]
  · intro id st h
    cases hdec : c.decode <;>
      simp only [h2c_frt_handle_headers_idle, hdec] at h ⊢ <;>
      split_ifs at h ⊢ with h1 h2 <;> simp_all
  · cases hdec : c.decode <;>
      simp only [h2c_frt_handle_headers_idle, hdec] <;>
      split_ifs with h1 h2 <;> simp_all <;> omega

/-- Witness for `h2c_frt_headers_id_monotone`: a complete HEADERS frame with
the even stream id 2 against `max_id = -1` is a connection PROTOCOL_ERROR. -/
theorem h2c_frt_headers_id_monotone_witness :
    h2c_frt_handle_headers_idle
        ⟨2, false, -1, false, 0, 100, true, .ok, false, true, true, true⟩ =
      ⟨.connError .PROTOCOL_ERROR, -1, false⟩ :=
  (h2c_frt_headers_id_monotone
    ⟨2, false, -1, false, 0, 100, true, .ok, false, true, true, true⟩).1
    (by decide) (by decide)

/-- C9: whenever `rcvd_c > 0` and the output ring has room, `h2c_send_conn_wu`
emits a connection WINDOW_UPDATE advertising `rcvd_c` bytes (enlarged by
`H2_INITIAL_WINDOW_INCREMENT` on the connection's first update) and resets
`rcvd_c` to 0; on the first update, the advertised receive window (initially
65535 minus the not-yet-acknowledged `rcvd_c` bytes) is thereby raised to
`2^31 - 1`. -/
theorem h2c_send_conn_wu_spec (c : H2cWuState) (h : 0 < c.rcvd_c) :
    (h2c_send_conn_wu true c).1 = 1 ∧
    (h2c_send_conn_wu true c).2.1.rcvd_c = 0 ∧
    (h2c_send_conn_wu true c).2.1.window_opened = true ∧
    (h2c_send_conn_wu true c).2.2 =
      some ⟨0, c.rcvd_c + (if c.window_opened then 0 else H2_INITIAL_WINDOW_INCREMENT)⟩ ∧
    (c.window_opened = false → c.rcvd_c ≤ 65535 →
      (65535 - (c.rcvd_c : Int)) +
        ((c.rcvd_c : Int) + (H2_INITIAL_WINDOW_INCREMENT : Int)) = 2147483647) := by
  obtain ⟨r, w⟩ := c
  have hpos : 0 < r := h
  have hr : ¬ r = 0 := by omega
  refine ⟨?_, ?_, ?_, ?_, ?_⟩ <;>
    cases w <;>
    simp [h2c_send_conn_wu, H2_INITIAL_WINDOW_INCREMENT, hr] <;>
    omega

/-- Witness for `h2c_send_conn_wu_spec` at `rcvd_c = 100`, first update. -/
theorem h2c_send_conn_wu_spec_witness :
    (h2c_send_conn_wu true ⟨100, false⟩).1 = 1 ∧
    (h2c_send_conn_wu true ⟨100, false⟩).2.1.rcvd_c = 0 ∧
    (h2c_send_conn_wu true ⟨100, false⟩).2.1.window_opened = true ∧
    (h2c_send_conn_wu true ⟨100, false⟩).2.2 =
      some ⟨0, 100 + (if false then 0 else H2_INITIAL_WINDOW_INCREMENT)⟩ ∧
    (false = false → 100 ≤ 65535 →
      (65535 - (100 : Int)) + ((100 : Int) + (H2_INITIAL_WINDOW_INCREMENT : Int)) =
        2147483647) :=
  h2c_send_conn_wu_spec ⟨100, false⟩ (by decide)

/-- C10: on a fully buffered WINDOW_UPDATE frame, a zero increment is a
stream PROTOCOL_ERROR (entering FRAME_E) for a non-zero stream id and a
connection PROTOCOL_ERROR for stream id 0; an increment that would push the
respective send window above `2^31 - 1` is a FLOW_CONTROL_ERROR at the same
scope; and an update for a stream already CLOSED is accepted silently with
no state change. -/
theorem h2c_handle_window_update_spec (c : WuCtx) (hbuf : c.dfl ≤ c.dbuf_data) :
    (c.dsi ≠ 0 → c.strm_st ≠ .CLOSED → c.inc_raw = 0 →
       h2c_handle_window_update c =
         ⟨0, some .FRAME_E, none, some .PROTOCOL_ERROR, c.mws, c.sws⟩) ∧
    (c.dsi = 0 → c.inc_raw = 0 →
       h2c_handle_window_update c =
         ⟨0, some .ERROR, some .PROTOCOL_ERROR, none, c.mws, c.sws⟩) ∧
    (c.dsi ≠ 0 → c.strm_st ≠ .CLOSED → 0 < c.inc_raw → c.inc_raw < 2147483648 →
       0 ≤ c.sws + c.miw → c.sws + c.miw < 2147483648 →
       2147483647 < c.sws + c.miw + (c.inc_raw : Int) →
       h2c_handle_window_update c =
         ⟨0, some .FRAME_E, none, some .FLOW_CONTROL_ERROR, c.mws, c.sws⟩) ∧
    (c.dsi = 0 → 0 < c.inc_raw → c.inc_raw < 2147483648 →
       0 ≤ c.mws → c.mws < 2147483648 →
       2147483647 < c.mws + (c.inc_raw : Int) →
       h2c_handle_window_update c =
         ⟨0, some .ERROR, some .FLOW_CONTROL_ERROR, none, c.mws, c.sws⟩) ∧
    (c.dsi ≠ 0 → c.strm_st = .CLOSED →
       h2c_handle_window_update c = ⟨1, none, none, none, c.mws, c.sws⟩) := by
  have hb : ¬ c.dbuf_data < c.dfl := by omega
  refine ⟨?_, ?_, ?_, ?_, ?_⟩
  · intro h1 h2 h3
    simp [h2c_handle_window_update, hb, h1, h2, h3, toSigned32]
  · intro h1 h2
    simp [h2c_handle_window_update, hb, h1, h2, toSigned32]
  · intro h1 h2 h3 h4 h5 h6 h7
    have hsg : toSigned32 c.inc_raw = (c.inc_raw : Int) := by
      simp [toSigned32, h4]
    have hw1 : wrap32 (c.sws + c.miw) = c.sws + c.miw := by
      simp only [wrap32]; omega
    have hw2 : wrap32 (c.sws + c.miw + (c.inc_raw : Int)) < 0 := by
      simp only [wrap32]; omega
    have hnz : ¬ toSigned32 c.inc_raw = 0 := by omega
    have hnz2 : ¬ c.inc_raw = 0 := by omega
    simp [h2c_handle_window_update, hb, h1, h2, hsg, hw1, hw2, hnz, hnz2, h5]
  · intro h1 h2 h3 h4 h5 h6
    have hsg : toSigned32 c.inc_raw = (c.inc_raw : Int) := by
      simp [toSigned32, h3]
    have hw2 : wrap32 (c.mws + (c.inc_raw : Int)) < 0 := by
      simp only [wrap32]; omega
    have hnz : ¬ toSigned32 c.inc_raw = 0 := by omega
    have hnz2 : ¬ c.inc_raw = 0 := by omega
    simp [h2c_handle_window_update, hb, h1, hsg, hw2, hnz, hnz2, h4]
  · intro h1 h2
    simp [h2c_handle_window_update, hb, h1, h2]

/-- Witness for `h2c_handle_window_update_spec`: a zero increment on stream 1
(state OPEN) is a stream PROTOCOL_ERROR entering FRAME_E. -/
theorem h2c_handle_window_update_spec_witness :
    h2c_handle_window_update ⟨1, 4, 4, 0, 65535, 65535, 0, .OPEN⟩ =
      ⟨0, some .FRAME_E, none, some .PROTOCOL_ERROR, 65535, 0⟩ :=
  (h2c_handle_window_update_spec ⟨1, 4, 4, 0, 65535, 65535, 0, .OPEN⟩
    (by decide)).1 (by decide) (by decide) rfl

/-- A `wake` outcome of the walk step only happens for an expired task. -/
theorem wake_step_wake_expired (now : Nat) (wq rest : List WqEntry) (e : WqEntry)
    (h : wake_step now wq = .wake e rest) : tick_is_expired e.expire now = true := by
  unfold wake_step at h
  cases hl : wq_lookup now wq with
  | none => simp [hl] at h
  | some x =>
    simp only [hl] at h
    split_ifs at h with h1 h2 <;> simp_all

/-- C2: every task the `wake_expired_tasks` walk wakes with reason
`TASK_WOKEN_TIMER` has an expire tick that is expired relative to `now_ms`
under the wrapping 32-bit tick comparison; a task whose expire tick is still
in the future is never woken with reason TIMER, for any walk budget and any
tree contents, including across a wrap of the tick counter. -/
theorem wake_expired_tasks_woken_expired (now fuel : Nat) (wq : List WqEntry)
    (e : WqEntry) (he : e ∈ (wake_expired_tasks now fuel wq).1) :
    tick_is_expired e.expire now = true := by
  induction fuel generalizing wq with
  | zero => simp [wake_expired_tasks] at he
  | succ n ih =>
    rw [wake_expired_tasks] at he
    cases hs : wake_step now wq with
    | stop => simp [hs] at he
    | wake x rest =>
      simp only [hs] at he
      rcases List.mem_cons.mp he with rfl | hmem
      · exact wake_step_wake_expired now wq rest e hs
      · exact ih rest hmem
    | requeue wq2 =>
      simp only [hs] at he
      exact ih wq2 he

/-- Witness for `wake_expired_tasks_woken_expired`, on the timer-wrap
scenario of the spec: a task scheduled at `expire = 0x100` while
`now_ms = 0xFFFFFF00` is not woken, and once `now_ms` reaches `0x100` it is
woken, with an expired tick. -/
theorem wake_expired_tasks_woken_expired_witness :
    (wake_expired_tasks 4294966016 200 [⟨256, 1, 256⟩]).1 = [] ∧
    (⟨256, 1, 256⟩ : WqEntry) ∈ (wake_expired_tasks 256 200 [⟨256, 1, 256⟩]).1 ∧
    tick_is_expired 256 256 = true :=
  ⟨by decide, by decide,
   wake_expired_tasks_woken_expired 256 200 [⟨256, 1, 256⟩] ⟨256, 1, 256⟩ (by decide)⟩

/-- `eb32_lookup_ge` only returns members of the tree. -/
theorem eb32_lookup_ge_mem (x : Nat) (l : List WqEntry) (e : WqEntry)
    (h : eb32_lookup_ge x l = some e) : e ∈ l := by
  induction l with
  | nil => simp [eb32_lookup_ge] at h
  | cons a l ih =>
    simp only [eb32_lookup_ge] at h
    split_ifs at h with h1
    · simp_all
    · exact List.mem_cons_of_mem a (ih h)

/-- The node examined by the walk is a member of the tree. -/
theorem wq_lookup_mem (now : Nat) (wq : List WqEntry) (e : WqEntry)
    (h : wq_lookup now wq = some e) : e ∈ wq := by
  unfold wq_lookup at h
  cases hg : eb32_lookup_ge (sub32 now TIMER_LOOK_BACK) wq with
  | some x =>
    rw [hg] at h
    cases h
    exact eb32_lookup_ge_mem _ _ _ hg
  | none =>
    rw [hg] at h
    cases wq with
    | nil => simp [eb32_first] at h
    | cons a l =>
      simp only [eb32_first, List.head?_cons, Option.some.injEq] at h
      subst h
      exact List.mem_cons_self a l

/-- Membership in the sorted insertion. -/
theorem mem_eb32_insert (x e : WqEntry) (l : List WqEntry) :
    x ∈ eb32_insert e l ↔ x = e ∨ x ∈ l := by
  induction l with
  | nil => simp [eb32_insert]
  | cons a l ih =>
    simp only [eb32_insert]
    split_ifs with h1
    · simp [List.mem_cons]
    · simp only [List.mem_cons, ih]
      tauto

/-- C6: when the walk examines a tree node whose key differs from its task's
real `expire` and the task is not expired, the step requeues: the task is
removed from the tree and, if its expire tick is set, re-inserted keyed by
the real expire value (and is then the only node of that task); a task with
an unset expire tick is removed and not requeued. `tid`s are assumed unique
in the tree, as tasks are linked in the wait queue at most once. -/
theorem wake_step_stale_requeue (now : Nat) (wq : List WqEntry) (e : WqEntry)
    (hnd : (wq.map WqEntry.tid).Nodup)
    (hfound : wq_lookup now wq = some e)
    (hnex : tick_is_expired e.expire now = false)
    (hkey : e.expire ≠ e.key) :
    ∃ wq2, wake_step now wq = .requeue wq2 ∧
      (tick_isset e.expire = true →
        ({ key := e.expire, tid := e.tid, expire := e.expire } : WqEntry) ∈ wq2 ∧
        ∀ x ∈ wq2, x.tid = e.tid → x.key = e.expire ∧ x.expire = e.expire) ∧
      (tick_isset e.expire = false → ∀ x ∈ wq2, x.tid ≠ e.tid) := by
  have hmem : e ∈ wq := wq_lookup_mem now wq e hfound
  have hinj := List.inj_on_of_nodup_map hnd
  have hwqnd : wq.Nodup := List.Nodup.of_map _ hnd
  have herase : ∀ x ∈ wq.erase e, x.tid ≠ e.tid := by
    intro x hx htid
    have hx2 := (List.Nodup.mem_erase_iff hwqnd).mp hx
    exact hx2.1 (hinj hx2.2 hmem htid)
  refine ⟨if tick_isset e.expire = true
          then eb32_insert { e with key := e.expire } (wq.erase e)
          else wq.erase e, ?_, ?_, ?_⟩
  · simp [wake_step, hfound, hnex, bne_iff_ne, hkey]
  · intro hset
    rw [if_pos hset]
    constructor
    · exact (mem_eb32_insert _ _ _).mpr (Or.inl rfl)
    · intro x hx htid
      rcases (mem_eb32_insert _ _ _).mp hx with rfl | hx2
      · exact ⟨rfl, rfl⟩
      · exact absurd htid (herase x hx2)
  · intro hunset
    rw [if_neg (by simp [hunset])]
    exact herase

/-- Witness for `wake_step_stale_requeue`: a single node stored under the
stale key 5 whose task really expires at 7, examined at `now_ms = 6`. -/
theorem wake_step_stale_requeue_witness :
    ∃ wq2, wake_step 6 [⟨5, 1, 7⟩] = .requeue wq2 ∧
      (tick_isset 7 = true →
        ({ key := 7, tid := 1, expire := 7 } : WqEntry) ∈ wq2 ∧
        ∀ x ∈ wq2, x.tid = 1 → x.key = 7 ∧ x.expire = 7) ∧
      (tick_isset 7 = false → ∀ x ∈ wq2, x.tid ≠ 1) :=
  wake_step_stale_requeue 6 [⟨5, 1, 7⟩] ⟨5, 1, 7⟩ (by decide) (by decide)
    (by decide) (by decide)

/-- Bookkeeping facts about the allocation loop of `__pool_refill_alloc`:
it never touches `used`, `limit`, `minavail` or `failed`; `allocated` never
decreases, and strictly increases on a `done` exit; and it preserves the
accounting invariant, the `done` exit holding exactly one object (the one
about to be returned) outside `used + free_list`. -/
theorem pool_fill_loop_facts (os : Nat → Bool) (stop : Nat) (p : PoolHead) (i : Nat) :
    (pool_fill_loop os stop p i).2.1.used = p.used ∧
    (pool_fill_loop os stop p i).2.1.limit = p.limit ∧
    (pool_fill_loop os stop p i).2.1.minavail = p.minavail ∧
    (pool_fill_loop os stop p i).2.1.failed = p.failed ∧
    p.allocated ≤ (pool_fill_loop os stop p i).2.1.allocated ∧
    ((pool_fill_loop os stop p i).1 = .done →
       p.allocated + 1 ≤ (pool_fill_loop os stop p i).2.1.allocated) ∧
    (pool_inv p →
       ((pool_fill_loop os stop p i).1 = .done →
          (pool_fill_loop os stop p i).2.1.used +
            (pool_fill_loop os stop p i).2.1.free_list + 1 =
            (pool_fill_loop os stop p i).2.1.allocated) ∧
       ((pool_fill_loop os stop p i).1 ≠ .done →
          pool_inv (pool_fill_loop os stop p i).2.1)) := by
  induction p, i using pool_fill_loop.induct os stop with
  | case1 p i h =>
    rw [pool_fill_loop]
    simp [h, pool_inv]
  | case2 p i h1 h2 =>
    rw [pool_fill_loop]
    simp [h1, h2, pool_inv]
  | case3 p i h1 h2 h3 =>
    rw [pool_fill_loop]
    simp [h1, h2, h3, pool_inv]
  | case4 p i h1 h2 h3 ih =>
    rw [pool_fill_loop, if_neg h1, if_neg h2, if_neg h3]
    obtain ⟨e1, e2, e3, e4, e5, e6, e7⟩ := ih
    simp only [pool_inv] at *
    refine ⟨e1, e2, e3, e4, by omega, fun hd => by have := e6 hd; omega,
            fun hinv => e7 (by omega)⟩

/-- Bookkeeping facts about the `pool_gc` loop: it never touches `used`,
`limit`, `minavail` or `failed`; it decrements `allocated` exactly once per
object taken off the free list; and it preserves the accounting invariant. -/
theorem pool_gc_loop_facts (n : Nat) (p : PoolHead) :
    (pool_gc_loop n p).used = p.used ∧
    (pool_gc_loop n p).limit = p.limit ∧
    (pool_gc_loop n p).minavail = p.minavail ∧
    (pool_gc_loop n p).failed = p.failed ∧
    (pool_gc_loop n p).allocated ≤ p.allocated ∧
    (pool_gc_loop n p).free_list ≤ p.free_list ∧
    p.allocated - (pool_gc_loop n p).allocated =
      p.free_list - (pool_gc_loop n p).free_list ∧
    (pool_gc_loop n p).free_list +
      (p.allocated - (pool_gc_loop n p).allocated) = p.free_list ∧
    (pool_inv p → pool_inv (pool_gc_loop n p)) := by
  induction n generalizing p with
  | zero => simp [pool_gc_loop, pool_inv]
  | succ n ih =>
    rw [pool_gc_loop]
    split_ifs with h
    · obtain ⟨hfree, halloc⟩ : p.free_list ≠ 0 ∧ 1 ≤ p.allocated := by
        obtain ⟨h1, h2⟩ := h
        exact ⟨h1, by omega⟩
      obtain ⟨e1, e2, e3, e4, e5, e6, e7, e8, e9⟩ :=
        ih { p with free_list := p.free_list - 1, allocated := p.allocated - 1 }
      simp only [pool_inv] at *
      refine ⟨e1, e2, e3, e4, by omega, by omega, by omega, by omega,
              fun hinv => e9 (by omega)⟩
    · simp [pool_inv]

/-- The `pool_flush` walk decrements `allocated` once per free-list element
and changes nothing else. -/
theorem pool_flush_loop_eq (n : Nat) (p : PoolHead) :
    pool_flush_loop n p = { p with allocated := p.allocated - n } := by
  induction n generalizing p with
  | zero =>
    rw [pool_flush_loop]
    cases p
    simp
  | succ n ih =>
    rw [pool_flush_loop, ih]
    cases p
    simp only [PoolHead.mk.injEq, and_true, true_and]
    omega

/-- C4: `__pool_refill_alloc` returns NULL without running any gc (bumping
the per-thread `pool_fail` counter) when the pool's hard limit is already
reached; and when the OS allocator fails, the pool's `failed` counter is
incremented, `pool_gc` is run exactly once and the allocation retried; a
second failure returns NULL, bumping `pool_fail` (and `failed` again). In
every case `pool_gc` runs at most once per call. -/
theorem pool_refill_alloc_failure_spec (os : Nat → Bool) (pool : PoolHead)
    (avail pf gc : Nat) :
    ((pool.limit ≠ 0 ∧ pool.limit ≤ pool.allocated) →
       __pool_refill_alloc os pool avail pf gc =
         ⟨.limitReached, pool, pf + 1, gc, 0⟩) ∧
    (¬(pool.limit ≠ 0 ∧ pool.limit ≤ pool.allocated) →
     os 0 = false → os 1 = false →
       (__pool_refill_alloc os pool avail pf gc).result = .outOfMemory ∧
       (__pool_refill_alloc os pool avail pf gc).gc_runs = gc + 1 ∧
       (__pool_refill_alloc os pool avail pf gc).pool.failed = pool.failed + 2 ∧
       (__pool_refill_alloc os pool avail pf gc).pool_fail = pf + 1 ∧
       (__pool_refill_alloc os pool avail pf gc).os_calls = 2) ∧
    (__pool_refill_alloc os pool avail pf gc).gc_runs ≤ gc + 1 := by
  refine ⟨?_, ?_, ?_⟩
  · intro h
    have hph1 : pool_fill_loop os (avail + pool.used) pool 0 = (.limitHit, pool, 0) := by
      rw [pool_fill_loop, if_pos h]
    simp [__pool_refill_alloc, hph1]
  · intro h1 h2 h3
    have hph1 : pool_fill_loop os (avail + pool.used) pool 0 = (.allocFail, pool, 1) := by
      rw [pool_fill_loop, if_neg h1, if_pos h2]
    have hgc := pool_gc_loop_facts ({ pool with failed := pool.failed + 1 }).free_list
      { pool with failed := pool.failed + 1 }
    have hlim2 : ¬((pool_gc_pool { pool with failed := pool.failed + 1 }).limit ≠ 0 ∧
        (pool_gc_pool { pool with failed := pool.failed + 1 }).limit ≤
          (pool_gc_pool { pool with failed := pool.failed + 1 }).allocated) := by
      simp only [pool_gc_pool] at *
      omega
    have hph2 : pool_fill_loop os (avail + pool.used)
        (pool_gc_pool { pool with failed := pool.failed + 1 }) 1 =
        (.allocFail, pool_gc_pool { pool with failed := pool.failed + 1 }, 2) := by
      rw [pool_fill_loop, if_neg hlim2, if_pos h3]
    simp only [__pool_refill_alloc, hph1, hph2]
    simp only [pool_gc_pool] at *
    refine ⟨trivial, trivial, by omega, trivial, trivial⟩
  · rcases hph1 : pool_fill_loop os (avail + pool.used) pool 0 with ⟨ex, p, n⟩
    cases ex with
    | limitHit => simp [__pool_refill_alloc, hph1]
    | done => simp [__pool_refill_alloc, hph1]
    | allocFail =>
      rcases hph2 : pool_fill_loop os (avail + pool.used)
          (pool_gc_pool { p with failed := p.failed + 1 }) n with ⟨ex2, q, m⟩
      cases ex2 <;> simp [__pool_refill_alloc, hph1, hph2]

/-- Witness for `pool_refill_alloc_failure_spec`: a pool at its hard limit
(limit 5, 5 allocated) is refused outright: no gc, no OS call, `pool_fail`
bumped. -/
theorem pool_refill_alloc_failure_spec_witness :
    __pool_refill_alloc (fun _ => false) ⟨5, 2, 5, 0, 0, 3⟩ 0 7 9 =
      ⟨.limitReached, ⟨5, 2, 5, 0, 0, 3⟩, 8, 9, 0⟩ :=
  (pool_refill_alloc_failure_spec (fun _ => false) ⟨5, 2, 5, 0, 0, 3⟩ 0 7 9).1
    (by decide)

/-- Accounting effect of one `__pool_refill_alloc` call: the invariant is
preserved; on success `used` grows by exactly one, and `allocated` by at
least one when no gc intervened. -/
theorem pool_refill_alloc_acct (os : Nat → Bool) (pool : PoolHead) (avail pf gc : Nat) :
    (pool_inv pool → pool_inv (__pool_refill_alloc os pool avail pf gc).pool) ∧
    ((__pool_refill_alloc os pool avail pf gc).result = .ok →
       (__pool_refill_alloc os pool avail pf gc).pool.used = pool.used + 1) ∧
    ((__pool_refill_alloc os pool avail pf gc).result = .ok →
       (__pool_refill_alloc os pool avail pf gc).gc_runs = gc →
       pool.allocated + 1 ≤ (__pool_refill_alloc os pool avail pf gc).pool.allocated) := by
  rcases hph1 : pool_fill_loop os (avail + pool.used) pool 0 with ⟨ex, p, n⟩
  have F1 := pool_fill_loop_facts os (avail + pool.used) pool 0
  rw [hph1] at F1
  simp only [] at F1
  obtain ⟨f1, f2, f3, f4, f5, f6, f7⟩ := F1
  cases ex with
  | limitHit =>
    simp only [__pool_refill_alloc, hph1]
    refine ⟨fun hinv => (f7 hinv).2 (by simp), fun hok => by simp at hok,
            fun hok => by simp at hok⟩
  | done =>
    simp only [__pool_refill_alloc, hph1]
    refine ⟨fun hinv => ?_, fun _ => by omega, fun _ _ => f6 rfl⟩
    have hd := (f7 hinv).1 rfl
    simp only [pool_inv] at *
    omega
  | allocFail =>
    rcases hph2 : pool_fill_loop os (avail + pool.used)
        (pool_gc_pool { p with failed := p.failed + 1 }) n with ⟨ex2, q, m⟩
    have F2 := pool_fill_loop_facts os (avail + pool.used)
        (pool_gc_pool { p with failed := p.failed + 1 }) n
    rw [hph2] at F2
    simp only [] at F2
    obtain ⟨g1, g2, g3, g4, g5, g6, g7⟩ := F2
    have hinv_p2 : pool_inv pool →
        pool_inv (pool_gc_pool { p with failed := p.failed + 1 }) := by
      intro hinv
      have hp := (f7 hinv).2 (by simp)
      have G := pool_gc_loop_facts ({ p with failed := p.failed + 1 }).free_list
          { p with failed := p.failed + 1 }
      simp only [] at G
      refine (show _ from G.2.2.2.2.2.2.2.2) ?_
      simp only [pool_inv] at hp ⊢
      try simp only []
      omega
    cases ex2 with
    | limitHit =>
      simp only [__pool_refill_alloc, hph1, hph2]
      exact ⟨fun hinv => (g7 (hinv_p2 hinv)).2 (by simp),
             fun hok => by simp at hok, fun hok => by simp at hok⟩
    | allocFail =>
      simp only [__pool_refill_alloc, hph1, hph2]
      refine ⟨fun hinv => ?_, fun hok => by simp at hok, fun hok => by simp at hok⟩
      have hq := (g7 (hinv_p2 hinv)).2 (by simp)
      simp only [pool_inv] at hq ⊢
      try simp only []
      omega
    | done =>
      simp only [__pool_refill_alloc, hph1, hph2]
      refine ⟨fun hinv => ?_, fun _ => ?_, fun _ hgcr => ?_⟩
      · have hd := (g7 (hinv_p2 hinv)).1 rfl
        simp only [pool_inv] at *
        omega
      · have hg1 := (pool_gc_loop_facts ({ p with failed := p.failed + 1 }).free_list
          { p with failed := p.failed + 1 }).1
        simp only [pool_gc_pool] at g1
        simp only [] at hg1 ⊢
        omega
      · exfalso
        simp only [] at hgcr
        omega

/-- C5 (amended): pool operations preserve the accounting invariant
`used + free_list = allocated` (hence `allocated ≥ used ≥ 0`):
`__pool_refill_alloc` increments `used` by exactly one on success, and
`allocated` by at least one when no gc intervened (the embedded `pool_gc`
after a first OS failure may shrink `allocated` below its entry value, see
`pool_refill_alloc_alloc_growth_cex`), while `pool_flush` and `pool_gc`
decrement `allocated` by exactly the number of objects taken off the free
list and never modify `used`. -/
theorem pool_accounting_spec (os : Nat → Bool) (pool : PoolHead) (avail pf gc : Nat) :
    (pool_inv pool →
       pool_inv (__pool_refill_alloc os pool avail pf gc).pool ∧
       (__pool_refill_alloc os pool avail pf gc).pool.used ≤
         (__pool_refill_alloc os pool avail pf gc).pool.allocated) ∧
    ((__pool_refill_alloc os pool avail pf gc).result = .ok →
       (__pool_refill_alloc os pool avail pf gc).pool.used = pool.used + 1) ∧
    ((__pool_refill_alloc os pool avail pf gc).result = .ok →
       (__pool_refill_alloc os pool avail pf gc).gc_runs = gc →
       pool.allocated + 1 ≤ (__pool_refill_alloc os pool avail pf gc).pool.allocated) ∧
    ((pool_flush pool).used = pool.used ∧
     (pool_inv pool →
       pool_inv (pool_flush pool) ∧
       pool.allocated - (pool_flush pool).allocated =
         pool.free_list - (pool_flush pool).free_list)) ∧
    ((pool_gc_pool pool).used = pool.used ∧
     pool.allocated - (pool_gc_pool pool).allocated =
       pool.free_list - (pool_gc_pool pool).free_list ∧
     (pool_inv pool → pool_inv (pool_gc_pool pool))) := by
  obtain ⟨a1, a2, a3⟩ := pool_refill_alloc_acct os pool avail pf gc
  have hflush : pool_flush pool =
      { pool with allocated := pool.allocated - pool.free_list, free_list := 0 } := by
    simp [pool_flush, pool_flush_loop_eq]
  have G := pool_gc_loop_facts pool.free_list pool
  refine ⟨fun hinv => ⟨a1 hinv, ?_⟩, a2, a3, ?_, ?_⟩
  · have := a1 hinv
    simp only [pool_inv] at this
    omega
  · rw [hflush]
    refine ⟨rfl, fun hinv => ?_⟩
    simp only [pool_inv] at hinv ⊢
    try simp only []
    omega
  · simp only [pool_gc_pool]
    simp only [pool_inv] at G ⊢
    exact ⟨G.1, G.2.2.2.2.2.2.1, fun hinv => G.2.2.2.2.2.2.2.2 hinv⟩

/-- C5 counterexample: a successful `__pool_refill_alloc` call need not
increment `allocated` by at least one. On a pool with 4 allocated, 2 used
and 2 free objects, a first OS-allocation failure runs `pool_gc`, which
frees both free-list objects (`allocated` 4 to 2); the retried allocation
then succeeds, so the call returns ok with `allocated = 3`, below the entry
value 4. -/
theorem pool_refill_alloc_alloc_growth_cex :
    (__pool_refill_alloc (fun i => decide (0 < i)) ⟨4, 2, 0, 0, 0, 2⟩ 0 0 0).result =
      .ok ∧
    ¬ ((⟨4, 2, 0, 0, 0, 2⟩ : PoolHead).allocated + 1 ≤
        (__pool_refill_alloc (fun i => decide (0 < i))
          ⟨4, 2, 0, 0, 0, 2⟩ 0 0 0).pool.allocated) := by
  constructor <;>
    simp [__pool_refill_alloc, pool_fill_loop, pool_gc_pool, pool_gc_loop]

/-- Witness for `pool_accounting_spec`: a pool with 4 allocated, 2 used and 2
free objects; a successful refill keeps the invariant and hands out one more
object. -/
theorem pool_accounting_spec_witness :
    pool_inv (__pool_refill_alloc (fun _ => true) ⟨4, 2, 0, 0, 0, 2⟩ 0 0 0).pool ∧
    (__pool_refill_alloc (fun _ => true) ⟨4, 2, 0, 0, 0, 2⟩ 0 0 0).pool.used =
      (⟨4, 2, 0, 0, 0, 2⟩ : PoolHead).used + 1 :=
  ⟨((pool_accounting_spec (fun _ => true) ⟨4, 2, 0, 0, 0, 2⟩ 0 0 0).1
      (by unfold pool_inv; decide)).1,
   (pool_accounting_spec (fun _ => true) ⟨4, 2, 0, 0, 0, 2⟩ 0 0 0).2.1
      (by simp [__pool_refill_alloc, pool_fill_loop])⟩

/-- Decimal digit characters are digits with the expected code. -/
theorem digitChar_isDigit : ∀ d, d < 10 → (digitChar d).isDigit = true := by
  decide

/-- Code of a decimal digit character. -/
theorem digitChar_toNat : ∀ d, d < 10 → (digitChar d).toNat = 48 + d := by
  decide

/-- The decimal text of a number is non-empty. -/
theorem natChars_length_pos (n : Nat) : 1 ≤ (natChars n).length := by
  induction n using natChars.induct with
  | case1 n h => rw [natChars]; simp [h]
  | case2 n h ih => rw [natChars]; simp [h]

/-- Reading the decimal text of `n` followed by anything accumulates `n`. -/
theorem read_uint_aux_natChars (n : Nat) :
    ∀ acc rest, read_uint_aux acc (natChars n ++ rest) =
      read_uint_aux (acc * 10 ^ (natChars n).length + n) rest := by
  induction n using natChars.induct with
  | case1 n h =>
    intro acc rest
    rw [natChars]
    simp only [dif_pos h, List.singleton_append, List.length_singleton]
    rw [read_uint_aux]
    simp [digitChar_isDigit n h, digitChar_toNat n h]
  | case2 n h ih =>
    intro acc rest
    rw [natChars]
    simp only [dif_neg h, List.append_assoc, List.singleton_append]
    rw [ih]
    rw [read_uint_aux]
    have hm : n % 10 < 10 := Nat.mod_lt n (by omega)
    simp only [digitChar_isDigit _ hm, if_true, digitChar_toNat _ hm,
               List.length_append, List.length_singleton]
    have hstep : (acc * 10 ^ (natChars (n / 10)).length + n / 10) * 10 +
        (48 + n % 10 - 48) = acc * 10 ^ ((natChars (n / 10)).length + 1) + n := by
      have hdm : 10 * (n / 10) + n % 10 = n := Nat.div_add_mod n 10
      have h48 : 48 + n % 10 - 48 = n % 10 := by omega
      rw [h48]
      calc (acc * 10 ^ (natChars (n / 10)).length + n / 10) * 10 + n % 10
          = acc * (10 ^ (natChars (n / 10)).length * 10) +
              (10 * (n / 10) + n % 10) := by ring
        _ = acc * 10 ^ ((natChars (n / 10)).length + 1) + n := by
              rw [hdm, pow_succ]
    rw [hstep]

/-- `read_uint` stops at a non-digit. -/
theorem read_uint_aux_stop (acc : Nat) (l : List Char)
    (h : ∀ c, l.head? = some c → c.isDigit = false) :
    read_uint_aux acc l = (acc, l) := by
  cases l with
  | nil => rfl
  | cons c t =>
    rw [read_uint_aux]
    simp [h c rfl]

/-- `read_uint` on the decimal text of `n` followed by a non-digit returns
exactly `n` and the rest. -/
theorem read_uint_natChars (n : Nat) (rest : List Char)
    (h : ∀ c, rest.head? = some c → c.isDigit = false) :
    read_uint (natChars n ++ rest) = (n, rest) := by
  rw [read_uint, read_uint_aux_natChars]
  simp only [Nat.zero_mul, Nat.zero_add]
  exact read_uint_aux_stop n rest h

/-- A dot is not a digit (head form used by the parser lemmas). -/
theorem head_dot_not_digit (l : List Char) :
    ∀ c, (('.' :: l : List Char)).head? = some c → c.isDigit = false := by
  intro c hc
  cases hc
  rfl

/-- `inetaddr_host_lim_ret` on the dotted-quad text of an IPv4 address
followed by a non-digit returns the address value and the rest. -/
theorem inetaddr_chars (a b c d : Nat) (rest : List Char)
    (h : ∀ ch, rest.head? = some ch → ch.isDigit = false) :
    inetaddr_host_lim_ret (ipv4Chars a b c d ++ rest) =
      some (ipv4Val a b c d, rest) := by
  have hsh : ipv4Chars a b c d ++ rest =
      natChars a ++ ('.' :: (natChars b ++ ('.' :: (natChars c ++
        ('.' :: (natChars d ++ rest)))))) := by
    simp [ipv4Chars, List.append_assoc]
  rw [hsh]
  unfold inetaddr_host_lim_ret
  rw [read_uint_natChars a _ (head_dot_not_digit _)]
  simp only [List.head?_cons, List.tail_cons, if_pos rfl]
  rw [read_uint_natChars b _ (head_dot_not_digit _)]
  simp only [List.head?_cons, List.tail_cons, if_pos rfl]
  rw [read_uint_natChars c _ (head_dot_not_digit _)]
  simp only [List.head?_cons, List.tail_cons, if_pos rfl]
  rw [read_uint_natChars d _ h]
  rfl

/-- Stripping a literal prefix from a list that starts with it. -/
theorem drop_pre_append (p l : List Char) : drop_pre p (p ++ l) = some l := by
  induction p with
  | nil => simp [drop_pre]
  | cons c t ih =>
    rw [List.cons_append, drop_pre]
    simp [ih]

/-- A space heads no digit (head form used by the parser lemmas). -/
theorem head_space_not_digit (l : List Char) :
    ∀ c, ((' ' :: l : List Char)).head? = some c → c.isDigit = false := by
  intro c hc
  cases hc
  rfl

/-- C7: for an input beginning with a complete well-formed
`PROXY TCP4 <src> <dst> <sport> <dport>\r\n` line, `conn_recv_proxy` returns
1, sets `conn->src` and `conn->dst` to the given IPv4 addresses and ports,
sets `CO_FL_RCVD_PROXY`, and consumes exactly the header line, leaving all
following bytes unread. -/
theorem conn_recv_proxy_v1_tcp4 (a1 a2 a3 a4 b1 b2 b3 b4 sport dport : Nat)
    (rest : List Char) (hs : sport < 65536) (hd : dport < 65536) :
    conn_recv_proxy (proxyV1Line a1 a2 a3 a4 b1 b2 b3 b4 sport dport ++ rest) =
      ⟨1, some (ipv4Val a1 a2 a3 a4, sport), some (ipv4Val b1 b2 b3 b4, dport),
       true, (proxyV1Line a1 a2 a3 a4 b1 b2 b3 b4 sport dport).length⟩ := by
  have hip1 := inetaddr_chars a1 a2 a3 a4
    (' ' :: (ipv4Chars b1 b2 b3 b4 ++ (' ' :: (natChars sport ++
      (' ' :: (natChars dport ++ ('\r' :: '\n' :: rest)))))))
    (head_space_not_digit _)
  have hip2 := inetaddr_chars b1 b2 b3 b4
    (' ' :: (natChars sport ++ (' ' :: (natChars dport ++ ('\r' :: '\n' :: rest)))))
    (head_space_not_digit _)
  have hru1 := read_uint_natChars sport
    (' ' :: (natChars dport ++ ('\r' :: '\n' :: rest))) (head_space_not_digit _)
  have hru2 := read_uint_natChars dport ('\r' :: '\n' :: rest)
    (by intro c hc; cases hc; rfl)
  have hstr : ("PROXY TCP4 ".toList : List Char) =
      "PROXY ".toList ++ "TCP4 ".toList := by decide
  have hinput : proxyV1Line a1 a2 a3 a4 b1 b2 b3 b4 sport dport ++ rest =
      "PROXY ".toList ++ ("TCP4 ".toList ++ (ipv4Chars a1 a2 a3 a4 ++
        (' ' :: (ipv4Chars b1 b2 b3 b4 ++ (' ' :: (natChars sport ++
          (' ' :: (natChars dport ++ ('\r' :: '\n' :: rest))))))))) := by
    simp [proxyV1Line, hstr, List.append_assoc]
  have hL6 : (("PROXY ".toList : List Char)).length = 6 := by decide
  have hL5 : (("TCP4 ".toList : List Char)).length = 5 := by decide
  have hlentot : (proxyV1Line a1 a2 a3 a4 b1 b2 b3 b4 sport dport).length + rest.length =
      ("PROXY ".toList ++ ("TCP4 ".toList ++ (ipv4Chars a1 a2 a3 a4 ++
        (' ' :: (ipv4Chars b1 b2 b3 b4 ++ (' ' :: (natChars sport ++
          (' ' :: (natChars dport ++ ('\r' :: '\n' :: rest)))))))))).length := by
    rw [← hinput]
    simp
  rw [hinput]
  have hlen0 : ¬ ("PROXY ".toList ++ ("TCP4 ".toList ++ (ipv4Chars a1 a2 a3 a4 ++
      (' ' :: (ipv4Chars b1 b2 b3 b4 ++ (' ' :: (natChars sport ++
        (' ' :: (natChars dport ++ ('\r' :: '\n' :: rest)))))))))).length = 0 := by
    simp [hL6]
  have hlen6 : ¬ ("PROXY ".toList ++ ("TCP4 ".toList ++ (ipv4Chars a1 a2 a3 a4 ++
      (' ' :: (ipv4Chars b1 b2 b3 b4 ++ (' ' :: (natChars sport ++
        (' ' :: (natChars dport ++ ('\r' :: '\n' :: rest)))))))))).length < 6 := by
    simp only [List.length_append, hL6]
    omega
  have hlen9 : ¬ ("PROXY ".toList ++ ("TCP4 ".toList ++ (ipv4Chars a1 a2 a3 a4 ++
      (' ' :: (ipv4Chars b1 b2 b3 b4 ++ (' ' :: (natChars sport ++
        (' ' :: (natChars dport ++ ('\r' :: '\n' :: rest)))))))))).length < 9 := by
    simp only [List.length_append, hL6, hL5]
    omega
  rw [conn_recv_proxy, if_neg hlen0, if_neg hlen6, drop_pre_append]
  simp only []
  rw [if_neg hlen9, drop_pre_append]
  simp only []
  rw [hip1]
  simp only []
  rw [if_neg (by simp), if_neg (by simp)]
  simp only [List.tail_cons]
  rw [hip2]
  simp only []
  rw [if_neg (by simp), if_neg (by simp)]
  simp only [List.tail_cons]
  rw [hru1]
  simp only []
  rw [if_neg (by simp), if_neg (by simp)]
  simp only [List.tail_cons]
  rw [hru2]
  simp only []
  rw [if_neg (by simp only [List.length_cons]; omega)]
  simp only [RecvProxyOut.mk.injEq, Option.some.injEq, Prod.mk.injEq,
             Nat.mod_eq_of_lt hs, Nat.mod_eq_of_lt hd, and_true, true_and]
  omega

/-- Witness for `conn_recv_proxy_v1_tcp4`, on the literal scenario of the
spec: `PROXY TCP4 192.0.2.1 198.51.100.2 56324 443\r\n` followed by an HTTP
request; the addresses are set and exactly the header line is consumed. -/
theorem conn_recv_proxy_v1_tcp4_witness :
    conn_recv_proxy (proxyV1Line 192 0 2 1 198 51 100 2 56324 443 ++
        "GET / HTTP/1.1\r\nHost: x\r\n\r\n".toList) =
      ⟨1, some (ipv4Val 192 0 2 1, 56324), some (ipv4Val 198 51 100 2, 443),
       true, (proxyV1Line 192 0 2 1 198 51 100 2 56324 443).length⟩ :=
  conn_recv_proxy_v1_tcp4 192 0 2 1 198 51 100 2 56324 443
    "GET / HTTP/1.1\r\nHost: x\r\n\r\n".toList (by decide) (by decide)
